import Mathlib

/-! # Verification of the session-creation pipeline

Shallow embedding of the repository's session pipeline: the title deriver
`generateSessionTitle` (API route, POST handler), the language detector
`detectLanguageFromFile`, the repository resolver `fetchGitHubRepo` and the
submit handler `handleSubmit` (TextInput component), and the persistence
step of the sessions POST route.  JavaScript strings are modelled as Lean
`String`s (lists of characters); lengths are character counts.  Network
calls and the browser file reader are modelled as oracle functions supplied
in an environment record, with `Option` capturing success/failure.
-/

/-! ## JavaScript string primitives

Small combinators mirroring the JavaScript string operations the source
uses: `trim`, `split('\n')`, `split(/\s+/)`, `substring(0, n)`,
`toLowerCase`, and the first-letter capitalisation idiom. -/

/-- Whitespace as used by the source's `trim()` / `split(/\s+/)` calls
(the source only ever feeds it ASCII text). -/
def isJsWs (c : Char) : Bool :=
  c = ' ' || c = '\t' || c = '\n' || c = '\r'

/-- Character-list core of `String.prototype.trim`. -/
def trimChars (cs : List Char) : List Char :=
  ((cs.dropWhile isJsWs).reverse.dropWhile isJsWs).reverse

/-- Models `s.trim()`. -/
def jsTrim (s : String) : String :=
  ⟨trimChars s.data⟩

/-- Models `s.split(sep)` for a single-character separator (used with
`'\n'` and `'.'`); like in JavaScript, boundary pieces may be empty and
the result is never the empty list. -/
def splitOnChar (sep : Char) : List Char → List (List Char)
  | [] => [[]]
  | c :: rest =>
    if c = sep then [] :: splitOnChar sep rest
    else
      match splitOnChar sep rest with
      | [] => [[c]]
      | h :: t => (c :: h) :: t

/-- Models `code.split('\n')`. -/
def jsLines (s : String) : List (List Char) :=
  splitOnChar '\n' s.data

/-- Models `s.split(/\s+/)` up to the boundary empty-string pieces
JavaScript may produce; those pieces have length 0 and are removed by the
`word.length > 2` filter that always follows this split in the source, so
they are dropped here directly. -/
def splitWsGo (cur : List Char) : List Char → List (List Char)
  | [] => if cur.isEmpty then [] else [cur.reverse]
  | c :: rest =>
    if isJsWs c then
      if cur.isEmpty then splitWsGo [] rest
      else cur.reverse :: splitWsGo [] rest
    else splitWsGo (c :: cur) rest

/-- Maximal runs of non-whitespace characters, in order. -/
def splitWs (cs : List Char) : List (List Char) :=
  splitWsGo [] cs

/-- Models `s.substring(0, n)`. -/
def jsSubstring (s : String) (n : Nat) : String :=
  ⟨s.data.take n⟩

/-- Models `s.toLowerCase()` (ASCII-faithful). -/
def jsToLowerStr (s : String) : String :=
  ⟨s.data.map Char.toLower⟩

/-- Models `language.charAt(0).toUpperCase() + language.slice(1)`
(ASCII-faithful: one character maps to one character). -/
def capitalizeJs (s : String) : String :=
  match s.data with
  | [] => ""
  | c :: rest => ⟨Char.toUpper c :: rest⟩

/-- Models `arr.join(' ')` on a list of strings. -/
def joinWords : List String → String
  | [] => ""
  | [w] => w
  | w :: ws => w ++ " " ++ joinWords ws

/-! ## Title deriver (`generateSessionTitle`, sessions POST route) -/

/-- Line filter of `generateSessionTitle`: drop empty lines and the fixed
comment-leader patterns, in the source's order of checks. -/
def keepLine (line : List Char) : Bool :=
  if line.isEmpty then false
  else if "//".data.isPrefixOf line then false
  else if "/*".data.isPrefixOf line then false
  else if "*".data.isPrefixOf line then false
  else if "#".data.isPrefixOf line then false
  else if "<!--".data.isPrefixOf line then false
  else true

/-- The code symbols replaced by spaces: the regex class
`[{}();,\[\]"'` + backtick + `]`. -/
def codeSymbols : List Char :=
  ['{', '}', '(', ')', ';', ',', '[', ']', '"', Char.ofNat 39, Char.ofNat 96]

/-- Models `.replace(/[{}();,\[\]"'`...`]/g, ' ')`. -/
def replaceSymbols (cs : List Char) : List Char :=
  cs.map (fun c => if c ∈ codeSymbols then ' ' else c)

/-- The fixed stop-word list `commonKeywords` from the source. -/
def commonKeywords : List String :=
  ["import", "from", "const", "let", "var", "function", "class", "export",
   "default", "return", "if", "else", "for", "while", "do", "try", "catch",
   "async", "await"]

/-- Lines trimmed, comment/empty lines dropped, joined with single spaces:
the `cleanCode` local of `generateSessionTitle`. -/
def cleanCode (code : String) : List Char :=
  List.intercalate [' '] (((jsLines code).map trimChars).filter keepLine)

/-- Tokens of the cleaned code after symbol replacement and whitespace
splitting. -/
def tokensOf (code : String) : List String :=
  (splitWs (replaceSymbols (cleanCode code))).map (fun l => (⟨l⟩ : String))

/-- Token filter: `word.length > 2 && !commonKeywords.includes(word.toLowerCase())`. -/
def keepWord (word : String) : Bool :=
  decide (2 < word.length) && !(commonKeywords.contains (jsToLowerStr word))

/-- The `words` local of `generateSessionTitle`: surviving tokens,
first 4. -/
def meaningfulWords (code : String) : List String :=
  ((tokensOf code).filter keepWord).take 4

/-- The title generator of the sessions POST route, translated from
`generateSessionTitle` in the API route source. -/
def generateSessionTitle (code language : String) : String :=
  if code = "" ∨ jsTrim code = "" then "New " ++ language ++ " Session"
  else if meaningfulWords code = [] then capitalizeJs language ++ " Code"
  else if 30 < (joinWords (meaningfulWords code)).length then
    jsSubstring (joinWords (meaningfulWords code)) 27 ++ "..."
  else joinWords (meaningfulWords code)

/-! ## Title deriver as described by the specification (for refinement)

A second definition, written from the wording of the specification's
title-deriver algorithm (steps 1-6), to be compared with the translation
of the source above. -/

/-- The specification's fixed comment-leader set. -/
def specCommentLeaders : List String :=
  ["//", "/*", "*", "#", "<!--"]

/-- The specification's fixed stop-word list. -/
def specStopWords : List String :=
  ["import", "from", "const", "let", "var", "function", "class", "export",
   "default", "return", "if", "else", "for", "while", "do", "try", "catch",
   "async", "await"]

/-- The specification's fixed punctuation set. -/
def specPunctuation : List Char :=
  ['{', '}', '(', ')', ';', ',', '[', ']', '"', Char.ofNat 39, Char.ofNat 96]

/-- Spec step 2 line filter: drop lines that are empty or start with any
comment leader. -/
def specKeepLine (line : List Char) : Bool :=
  !line.isEmpty && specCommentLeaders.all (fun t => !(t.data.isPrefixOf line))

/-- Spec step 4 token filter: drop tokens of length at most 2 and tokens
matching the stop-word list case-insensitively. -/
def specKeepWord (word : String) : Bool :=
  decide (2 < word.length) && !(specStopWords.contains (jsToLowerStr word))

/-- Spec steps 2-5: trim and filter the lines, join with single spaces,
strip punctuation, split on whitespace, filter tokens, take the first 4
survivors. -/
def specWords (code : String) : List String :=
  ((((splitWs ((List.intercalate [' ']
        (((jsLines code).map trimChars).filter specKeepLine)).map
          (fun c => if c ∈ specPunctuation then ' ' else c))).map
      (fun l => (⟨l⟩ : String))).filter specKeepWord).take 4)

/-- Title deriver written from the specification's algorithm. -/
def titleDeriverSpec (code language : String) : String :=
  if jsTrim code = "" then "New " ++ language ++ " Session"
  else if specWords code = [] then capitalizeJs language ++ " Code"
  else if 30 < (joinWords (specWords code)).length then
    jsSubstring (joinWords (specWords code)) 27 ++ "..."
  else joinWords (specWords code)

/-! ## Language detection (`detectLanguageFromFile`, TextInput component) -/

/-- The fixed extension-to-language table `languageMap` from the source. -/
def languageMap : List (String × String) :=
  [("js", "javascript"), ("jsx", "javascript"), ("ts", "typescript"),
   ("tsx", "typescript"), ("py", "python"), ("java", "java"), ("cpp", "cpp"),
   ("c", "c"), ("html", "html"), ("css", "css"), ("scss", "scss"),
   ("json", "json"), ("xml", "xml"), ("php", "php"), ("rb", "ruby"),
   ("go", "go"), ("rs", "rust"), ("kt", "kotlin"), ("swift", "swift"),
   ("dart", "dart"), ("vue", "vue"), ("svelte", "svelte")]

/-- Models `fileName.split('.').pop()?.toLowerCase()`: the last
dot-separated component of the name, lowercased (for a name without a dot
this is the whole name, as in the source). -/
def fileExtension (fileName : String) : String :=
  jsToLowerStr ⟨(splitOnChar '.' fileName.data).getLastD []⟩

/-- Translation of `detectLanguageFromFile`: table lookup on the
extension, defaulting to `"javascript"`. -/
def detectLanguageFromFile (fileName : String) : String :=
  match languageMap.find? (fun p => p.1 = fileExtension fileName) with
  | some p => p.2
  | none => "javascript"

/-! ## Data model of the TextInput component and the sessions route -/

/-- A fetched repository file (`GitHubFile` in the source); `language` is
optional in the source interface. -/
structure GitHubFile where
  name : String
  path : String
  content : String
  size : Nat
  type : String
  language : Option String
deriving DecidableEq

/-- A resolved repository snapshot (`GitHubRepo` in the source). -/
structure GitHubRepo where
  name : String
  fullName : String
  description : String
  stars : Nat
  language : String
  files : List GitHubFile
deriving DecidableEq

/-- One entry of the repository contents listing as returned by the
hosting service. -/
structure ContentsItem where
  name : String
  path : String
  type : String
  size : Nat
  download_url : String
deriving DecidableEq

/-- Repository metadata as returned by the hosting service; `description`
and `language` may be absent (JSON null). -/
structure RepoMeta where
  name : String
  full_name : String
  description : Option String
  stargazers_count : Nat
  language : Option String
deriving DecidableEq

/-- Oracle for the network: repository metadata by owner/name (`none`
models a not-ok response), the flat contents listing by owner/name, and
raw file text by download reference (`none` models a failed fetch). -/
structure GitHubEnv where
  repoMeta : String → String → Option RepoMeta
  contents : String → String → Option (List ContentsItem)
  fileText : String → Option String

/-! ## Repository reference matching (`repoUrl.match(...)`) -/

/-- Attempt of the pattern `github\.com\/([^/]+)\/([^/]+)` at the head of
the character list: the literal `github.com/`, a non-empty run of
non-slash characters, a slash, and a non-empty run of non-slash
characters. -/
def matchGithubAt (cs : List Char) : Option (String × String) :=
  if "github.com/".data.isPrefixOf cs then
    let rest := cs.drop 11
    let owner := rest.takeWhile (fun c => c ≠ '/')
    let rest2 := rest.dropWhile (fun c => c ≠ '/')
    if owner.isEmpty then none
    else
      match rest2 with
      | '/' :: rest3 =>
        let repo := rest3.takeWhile (fun c => c ≠ '/')
        if repo.isEmpty then none else some (⟨owner⟩, ⟨repo⟩)
      | _ => none
  else none

/-- Leftmost match of the owner/repo pattern anywhere in the reference,
as `String.prototype.match` finds it. -/
def matchOwnerRepo : List Char → Option (String × String)
  | [] => none
  | c :: rest =>
    match matchGithubAt (c :: rest) with
    | some p => some p
    | none => matchOwnerRepo rest

/-- Models `repo.replace(/\.git$/, '')`. -/
def stripGitSuffix (repo : String) : String :=
  if ".git".data.isSuffixOf repo.data then ⟨repo.data.take (repo.data.length - 4)⟩
  else repo

/-! ## Repository resolution (`fetchGitHubRepo`) -/

/-- Per-item body of the file-fetch loop: fetch the item's text and build
a `GitHubFile`; a failed fetch yields `none` (the source's per-item
`catch` returning `null`). -/
def resolveItem (env : GitHubEnv) (item : ContentsItem) : Option GitHubFile :=
  (env.fileText item.download_url).map fun content =>
    { name := item.name
      path := item.path
      content := content
      size := item.size
      type := "file"
      language := some (detectLanguageFromFile item.name) }

/-- Translation of `fetchGitHubRepo`: parse the reference, fetch metadata
and the contents listing (any failure returns `none`, the source's outer
`catch`), then fetch the first 10 file entries, dropping individual
failures. -/
def fetchGitHubRepo (env : GitHubEnv) (repoUrl : String) : Option GitHubRepo :=
  match matchOwnerRepo repoUrl.data with
  | none => none
  | some (owner, repo) =>
    let cleanRepo := stripGitSuffix repo
    match env.repoMeta owner cleanRepo with
    | none => none
    | some repoData =>
      match env.contents owner cleanRepo with
      | none => none
      | some contents =>
        let files :=
          ((contents.filter (fun item => item.type = "file")).take 10).filterMap
            (resolveItem env)
        some { name := repoData.name
               fullName := repoData.full_name
               description :=
                 match repoData.description with
                 | some d => if d = "" then "No description available" else d
                 | none => "No description available"
               stars := repoData.stargazers_count
               language :=
                 match repoData.language with
                 | some l => if l = "" then "Unknown" else l
                 | none => "Unknown"
               files := files }

/-- Translation of `handleGithubModalSubmit`: on a non-blank reference,
fetch it and replace the stored snapshot only on success; a blank
reference leaves the state unchanged. -/
def handleGithubModalSubmit (env : GitHubEnv) (prev : Option GitHubRepo)
    (githubRepo : String) : Option GitHubRepo :=
  if jsTrim githubRepo ≠ "" then
    match fetchGitHubRepo env (jsTrim githubRepo) with
    | some repoData => some repoData
    | none => prev
  else prev

/-! ## Submit handler (`handleSubmit`) and the sessions POST route -/

/-- An attached local file: its name and the outcome of
`readFileContent` on it (`none` models the reader's `onerror`
rejection). -/
structure LocalFile where
  name : String
  readResult : Option String
deriving DecidableEq

/-- The `githubRepo` object sent in the POST body:
`{ name, fullName, files }`. -/
structure RepoPayload where
  name : String
  fullName : String
  files : List GitHubFile
deriving DecidableEq

/-- The JSON body posted to `/api/sessions` on submit. -/
structure SessionRequest where
  code : String
  language : String
  initialMessage : String
  githubRepo : Option RepoPayload
deriving DecidableEq

/-- The header prepended when a repository file is combined with
non-empty user input. -/
def submitHeaderRepo (v fullName fileName content : String) : String :=
  "// User Input: " ++ v ++ "\n\n// GitHub Repository: " ++ fullName ++
    "\n// File: " ++ fileName ++ "\n" ++ content

/-- The header prepended when a local file is combined with non-empty
user input. -/
def submitHeaderFile (v fileName content : String) : String :=
  "// User Input: " ++ v ++ "\n\n// File: " ++ fileName ++ "\n" ++ content

/-- The `else if (attachedFiles.length > 0)` branch of `handleSubmit`
(also reached when no branch fires): first local file's content with
optional header, or the raw user text when reading fails or no file is
attached; the language is only overridden after a successful read. -/
def resolveFromFiles (currentValue : String) (attachedFiles : List LocalFile) :
    String × String :=
  match attachedFiles with
  | firstFile :: _ =>
    match firstFile.readResult with
    | some fileContent =>
      let language := detectLanguageFromFile firstFile.name
      if jsTrim currentValue ≠ "" then
        (submitHeaderFile currentValue firstFile.name fileContent, language)
      else (fileContent, language)
    | none => (currentValue, "javascript")
  | [] => (currentValue, "javascript")

/-- Code content and language selection of `handleSubmit`: the
`if (githubRepoData && githubRepoData.files.length > 0)` branch, else the
local-file branch. -/
def resolveContent (currentValue : String) (attachedFiles : List LocalFile)
    (githubRepoData : Option GitHubRepo) : String × String :=
  match githubRepoData with
  | some repoData =>
    match repoData.files with
    | firstFile :: _ =>
      let language := firstFile.language.getD "javascript"
      if jsTrim currentValue ≠ "" then
        (submitHeaderRepo currentValue repoData.fullName firstFile.name
          firstFile.content, language)
      else (firstFile.content, language)
    | [] => resolveFromFiles currentValue attachedFiles
  | none => resolveFromFiles currentValue attachedFiles

/-- The `initialMessage` field of the POST body:
`currentValue || (githubRepoData ? ... : ...)`, with the source's
`attachedFiles[0]?.name || 'Unknown'` fallback. -/
def initialMessageFor (currentValue : String) (attachedFiles : List LocalFile)
    (githubRepoData : Option GitHubRepo) : String :=
  if currentValue ≠ "" then currentValue
  else
    match githubRepoData with
    | some r => "Opened GitHub repository: " ++ r.fullName
    | none =>
      "Opened file: " ++
        match attachedFiles with
        | f :: _ => if f.name = "" then "Unknown" else f.name
        | [] => "Unknown"

/-- Translation of `handleSubmit`: a no-op unless trimmed user text is
non-empty, a file is attached, or a repository snapshot is present;
otherwise it produces the request body posted to `/api/sessions`. -/
def handleSubmit (currentValue : String) (attachedFiles : List LocalFile)
    (githubRepoData : Option GitHubRepo) : Option SessionRequest :=
  if jsTrim currentValue ≠ "" ∨ attachedFiles ≠ [] ∨ githubRepoData.isSome then
    some { code := (resolveContent currentValue attachedFiles githubRepoData).1
           language := (resolveContent currentValue attachedFiles githubRepoData).2
           initialMessage := initialMessageFor currentValue attachedFiles githubRepoData
           githubRepo := githubRepoData.map (fun r => ⟨r.name, r.fullName, r.files⟩) }
  else none

/-- Message type enumeration of the data model. -/
inductive MessageType where
  | USER
  | ASSISTANT
deriving DecidableEq

/-- A persisted message row. -/
structure PersistedMessage where
  content : String
  type : MessageType
deriving DecidableEq

/-- A persisted session row with its nested seed messages. -/
structure PersistedSession where
  code : String
  language : String
  title : String
  githubRepo : Option RepoPayload
  messages : List PersistedMessage
deriving DecidableEq

/-- Translation of the sessions POST route: default the language, derive
the title with `generateSessionTitle`, and create the session with one
seed USER message exactly when `initialMessage` is non-empty. -/
def createSessionPOST (req : SessionRequest) : PersistedSession :=
  let language := if req.language = "" then "javascript" else req.language
  { code := req.code
    language := language
    title := generateSessionTitle req.code language
    githubRepo := req.githubRepo
    messages :=
      if req.initialMessage = "" then []
      else [{ content := req.initialMessage, type := MessageType.USER }] }

/-- A whole submit action: the handler's request, when any, followed by
the route's persistence; `none` means nothing was persisted. -/
def submitAndPersist (currentValue : String) (attachedFiles : List LocalFile)
    (githubRepoData : Option GitHubRepo) : Option PersistedSession :=
  (handleSubmit currentValue attachedFiles githubRepoData).map createSessionPOST

/-! ## Helper lemmas -/

theorem trimChars_eq_nil_iff (cs : List Char) :
    trimChars cs = [] ↔ ∀ c ∈ cs, isJsWs c := by
  unfold trimChars
  rw [List.reverse_eq_nil_iff, List.dropWhile_eq_nil_iff]
  constructor
  · intro h c hc
    rw [← List.takeWhile_append_dropWhile isJsWs cs] at hc
    rcases List.mem_append.1 hc with h1 | h2
    · exact List.mem_takeWhile_imp h1
    · exact h c (List.mem_reverse.2 h2)
  · intro h x hx
    apply h
    rw [← List.takeWhile_append_dropWhile isJsWs cs]
    exact List.mem_append.2 (Or.inr (List.mem_reverse.1 hx))

theorem mem_splitOnChar {sep : Char} :
    ∀ {cs l : List Char}, l ∈ splitOnChar sep cs → ∀ {c : Char}, c ∈ l → c ∈ cs := by
  intro cs
  induction cs with
  | nil =>
    intro l hl c hc
    simp only [splitOnChar, List.mem_singleton] at hl
    subst hl
    simp at hc
  | cons hd rest ih =>
    intro l hl c hc
    by_cases hsep : hd = sep
    · rw [splitOnChar, if_pos hsep] at hl
      rcases List.mem_cons.1 hl with rfl | hmem
      · simp at hc
      · exact List.mem_cons_of_mem hd (ih hmem hc)
    · rw [splitOnChar, if_neg hsep] at hl
      cases hrec : splitOnChar sep rest with
      | nil =>
        rw [hrec] at hl
        simp only [List.mem_singleton] at hl
        subst hl
        simp only [List.mem_singleton] at hc
        subst hc
        exact List.mem_cons_self _ _
      | cons h t =>
        rw [hrec] at hl
        rcases List.mem_cons.1 hl with rfl | hmem
        · rcases List.mem_cons.1 hc with rfl | hch
          · exact List.mem_cons_self _ _
          · refine List.mem_cons_of_mem hd (ih ?_ hch)
            rw [hrec]
            exact List.mem_cons_self h t
        · refine List.mem_cons_of_mem hd (ih ?_ hc)
          rw [hrec]
          exact List.mem_cons_of_mem h hmem

theorem cleanCode_of_trim_nil {code : String} (h : jsTrim code = "") :
    cleanCode code = [] := by
  have hall : ∀ c ∈ code.data, isJsWs c := by
    refine (trimChars_eq_nil_iff _).1 ?_
    exact congrArg String.data h
  have hfilter : (((jsLines code).map trimChars).filter keepLine) = [] := by
    apply List.filter_eq_nil_iff.2
    intro l hl
    rcases List.mem_map.1 hl with ⟨line, hline, rfl⟩
    have hline' : trimChars line = [] :=
      (trimChars_eq_nil_iff _).2 (fun c hc => hall c (mem_splitOnChar hline hc))
    rw [hline']
    simp [keepLine]
  rw [cleanCode, hfilter]
  rfl

theorem meaningfulWords_of_trim_nil {code : String} (h : jsTrim code = "") :
    meaningfulWords code = [] := by
  rw [meaningfulWords, tokensOf, cleanCode_of_trim_nil h]
  rfl

theorem length_of_mem_meaningfulWords {code w : String}
    (h : w ∈ meaningfulWords code) : 2 < w.length := by
  have h1 := List.mem_of_mem_take h
  have h2 := List.of_mem_filter h1
  simp only [keepWord, Bool.and_eq_true, decide_eq_true_eq] at h2
  exact h2.1

theorem joinWords_length_head (w : String) (ws : List String) :
    w.length ≤ (joinWords (w :: ws)).length := by
  cases ws with
  | nil => simp [joinWords]
  | cons a as =>
    simp only [joinWords, String.length_append]
    omega

theorem capitalizeJs_length (s : String) : (capitalizeJs s).length = s.length := by
  cases s with
  | mk data =>
    cases data with
    | nil => rfl
    | cons c rest => rfl

theorem jsSubstring_length (s : String) (n : Nat) :
    (jsSubstring s n).length = min n s.length :=
  List.length_take n s.data

theorem ne_empty_of_length_pos {s : String} (h : 0 < s.length) : s ≠ "" := by
  intro hs
  rw [hs] at h
  exact absurd h (by decide)

/-! ## Claim C1 -/

/-- C1 counterexample: the claimed 30-character bound fails as stated.
With empty code and a 19-character language tag the early-return branch
`"New " + language + " Session"` is 31 characters long and is returned
without truncation. -/
theorem titleDeriver_length_counterexample :
    30 < (generateSessionTitle "" "aaaaaaaaaaaaaaaaaaa").length := by decide

/-- C1 (amended): `generateSessionTitle` is a pure function (determinism
is inherent in the functional embedding); for every code string and every
language tag the result is non-empty; whenever the language tag has at
most 18 characters the result is at most 30 characters long; and
whenever the joined surviving tokens exceed 30 characters the result is
exactly their first 27 characters followed by `"..."`. -/
theorem titleDeriver_bounds (c l : String) :
    generateSessionTitle c l ≠ "" ∧
      (l.length ≤ 18 → (generateSessionTitle c l).length ≤ 30) ∧
      (30 < (joinWords (meaningfulWords c)).length →
        generateSessionTitle c l =
          jsSubstring (joinWords (meaningfulWords c)) 27 ++ "...") := by
  have hNew : ("New " ++ l ++ " Session").length = 12 + l.length := by
    rw [String.length_append, String.length_append]
    have h4 : ("New " : String).length = 4 := rfl
    have h8 : (" Session" : String).length = 8 := rfl
    omega
  by_cases h1 : c = "" ∨ jsTrim c = ""
  · have hw : meaningfulWords c = [] := by
      rcases h1 with rfl | htrim
      · exact meaningfulWords_of_trim_nil rfl
      · exact meaningfulWords_of_trim_nil htrim
    unfold generateSessionTitle
    rw [if_pos h1]
    refine ⟨ne_empty_of_length_pos ?_, ?_, ?_⟩
    · rw [hNew]; omega
    · intro h; rw [hNew]; omega
    · intro h30
      rw [hw] at h30
      exact absurd h30 (by decide)
  · unfold generateSessionTitle
    rw [if_neg h1]
    by_cases hw : meaningfulWords c = []
    · rw [if_pos hw]
      have hcap : (capitalizeJs l ++ " Code").length = l.length + 5 := by
        rw [String.length_append, capitalizeJs_length]
        rfl
      refine ⟨ne_empty_of_length_pos ?_, ?_, ?_⟩
      · rw [hcap]; omega
      · intro h; rw [hcap]; omega
      · intro h30
        rw [hw] at h30
        exact absurd h30 (by decide)
    · rw [if_neg hw]
      by_cases h30 : 30 < (joinWords (meaningfulWords c)).length
      · rw [if_pos h30]
        have hlen :
            (jsSubstring (joinWords (meaningfulWords c)) 27 ++ "...").length = 30 := by
          rw [String.length_append, jsSubstring_length]
          have hmin : min 27 (joinWords (meaningfulWords c)).length = 27 := by omega
          rw [hmin]
          rfl
        refine ⟨ne_empty_of_length_pos ?_, ?_, fun _ => rfl⟩
        · rw [hlen]; omega
        · intro h; rw [hlen]
      · rw [if_neg h30]
        obtain ⟨w, ws, hcons⟩ : ∃ w ws, meaningfulWords c = w :: ws := by
          cases hmw : meaningfulWords c with
          | nil => exact absurd hmw hw
          | cons w ws => exact ⟨w, ws, rfl⟩
        have hmem : w ∈ meaningfulWords c := by
          rw [hcons]; exact List.mem_cons_self _ _
        have hwlen := length_of_mem_meaningfulWords hmem
        have hge : w.length ≤ (joinWords (meaningfulWords c)).length := by
          rw [hcons]; exact joinWords_length_head w ws
        exact ⟨ne_empty_of_length_pos (by omega), fun _ => by omega,
          fun h30' => absurd h30' h30⟩

/-- C1 witness: the amended theorem applied at a concrete input whose
joined surviving tokens are 37 characters long, discharging both inner
implications there. -/
theorem titleDeriver_bounds_witness :
    generateSessionTitle "abcdefghijklmnopqrstuvwxyz abcdefghij" "python" ≠ "" ∧
      (generateSessionTitle "abcdefghijklmnopqrstuvwxyz abcdefghij" "python").length ≤ 30 ∧
      generateSessionTitle "abcdefghijklmnopqrstuvwxyz abcdefghij" "python" =
        jsSubstring (joinWords (meaningfulWords "abcdefghijklmnopqrstuvwxyz abcdefghij"))
          27 ++ "..." :=
  ⟨(titleDeriver_bounds "abcdefghijklmnopqrstuvwxyz abcdefghij" "python").1,
    (titleDeriver_bounds "abcdefghijklmnopqrstuvwxyz abcdefghij" "python").2.1 (by decide),
    (titleDeriver_bounds "abcdefghijklmnopqrstuvwxyz abcdefghij" "python").2.2 (by decide)⟩

/-! ## Claim C2 -/

theorem specKeepLine_eq_keepLine : specKeepLine = keepLine := by
  funext line
  simp only [specKeepLine, keepLine, specCommentLeaders, List.all_cons, List.all_nil,
    Bool.and_true]
  cases hE : line.isEmpty <;>
    cases h1 : "//".data.isPrefixOf line <;>
    cases h2 : "/*".data.isPrefixOf line <;>
    cases h3 : "*".data.isPrefixOf line <;>
    cases h4 : "#".data.isPrefixOf line <;>
    cases h5 : "<!--".data.isPrefixOf line <;>
    simp [hE, h1, h2, h3, h4, h5]

theorem specWords_eq_meaningfulWords (c : String) : specWords c = meaningfulWords c := by
  unfold specWords meaningfulWords tokensOf cleanCode
  rw [specKeepLine_eq_keepLine]
  rfl

/-- C2: `generateSessionTitle` follows the specification's title
algorithm exactly (steps 1-6 as written), and in particular maps empty
code to `"New python Session"` for language `"python"`, and comment-only
javascript code to `"Javascript Code"`. -/
theorem generateSessionTitle_matches_spec :
    (∀ c l, generateSessionTitle c l = titleDeriverSpec c l) ∧
      generateSessionTitle "" "python" = "New python Session" ∧
      generateSessionTitle "// just a comment\n   " "javascript" = "Javascript Code" := by
  refine ⟨fun c l => ?_, by decide, by decide⟩
  by_cases hc : jsTrim c = ""
  · unfold generateSessionTitle titleDeriverSpec
    rw [if_pos (Or.inr hc), if_pos hc]
  · have hne : ¬(c = "" ∨ jsTrim c = "") := by
      rintro (rfl | hh)
      · exact hc rfl
      · exact hc hh
    unfold generateSessionTitle titleDeriverSpec
    rw [if_neg hne, if_neg hc, specWords_eq_meaningfulWords]

/-! ## Claim C3 -/

/-- A successfully resolved snapshot whose contents listing yielded no
files. -/
def emptyRepoC3 : GitHubRepo :=
  { name := "r", fullName := "o/r", description := "d", stars := 0,
    language := "TypeScript", files := [] }

/-- C3 counterexample: a successfully resolved snapshot with an empty
file list does not take priority over local files.  With such a snapshot
attached, the resolved code is the local file's content and the language
is the local file's language, and changing the local file changes the
submitted request. -/
theorem snapshotPriority_counterexample :
    (handleSubmit "" [⟨"a.py", some "print(1)"⟩] (some emptyRepoC3)).map
        (fun r => (r.code, r.language)) = some ("print(1)", "python") ∧
      handleSubmit "" [⟨"a.py", some "print(1)"⟩] (some emptyRepoC3) ≠
        handleSubmit "" [⟨"b.ts", some "let x = 1"⟩] (some emptyRepoC3) := by
  decide

/-- C3 (amended): for every submit in which the resolved repository
snapshot contains at least one file and local files are also attached,
the resolved code content and language come from the snapshot's first
file (with the user-text header when the trimmed text is non-empty) and
are independent of the attached local files. -/
theorem snapshotPriority (v : String) (localFiles : List LocalFile)
    (repo : GitHubRepo) (f : GitHubFile) (rest : List GitHubFile)
    (h : repo.files = f :: rest) :
    (handleSubmit v localFiles (some repo)).map (fun r => (r.code, r.language)) =
      some
        (if jsTrim v ≠ "" then submitHeaderRepo v repo.fullName f.name f.content
         else f.content,
         f.language.getD "javascript") := by
  by_cases hv : jsTrim v = "" <;> simp [handleSubmit, resolveContent, h, hv]

/-- C3 witness. -/
theorem snapshotPriority_witness :
    (handleSubmit "hi"
        [⟨"x.py", some "LOCAL"⟩]
        (some { name := "r", fullName := "o/r", description := "d", stars := 1,
                language := "Go",
                files := [⟨"m.go", "m.go", "package main", 12, "file", some "go"⟩] })).map
        (fun r => (r.code, r.language)) =
      some
        (if jsTrim "hi" ≠ "" then
            submitHeaderRepo "hi" "o/r" "m.go" "package main"
          else "package main",
          (some "go").getD "javascript") :=
  snapshotPriority "hi" [⟨"x.py", some "LOCAL"⟩] _
    ⟨"m.go", "m.go", "package main", 12, "file", some "go"⟩ [] rfl

/-! ## Claim C7 -/

/-- C7: final code composition.  With only user text the code is the text
and the language the default; with a successfully read local file and
non-empty trimmed user text the code is the user-input line, a blank
line, the file header line, then the raw content; with a repository file
and non-empty trimmed user text the code is the user-input line, a blank
line, the two-line repository/file header, then the raw content; with
empty trimmed user text the primary file's content is used verbatim in
both cases. -/
theorem contentComposition :
    ((handleSubmit "hello" [] none).map fun r => (r.code, r.language)) =
        some ("hello", "javascript") ∧
      (∀ (v : String) (f : LocalFile) (content : String), jsTrim v ≠ "" →
        f.readResult = some content →
        (handleSubmit v [f] none).map SessionRequest.code =
          some ("// User Input: " ++ v ++ "\n\n// File: " ++ f.name ++ "\n" ++ content)) ∧
      (∀ (v : String) (repo : GitHubRepo) (f : GitHubFile) (rest : List GitHubFile),
        jsTrim v ≠ "" → repo.files = f :: rest →
        (handleSubmit v [] (some repo)).map SessionRequest.code =
          some ("// User Input: " ++ v ++ "\n\n// GitHub Repository: " ++ repo.fullName ++
            "\n// File: " ++ f.name ++ "\n" ++ f.content)) ∧
      (∀ (v : String) (repo : GitHubRepo) (f : GitHubFile) (rest : List GitHubFile),
        jsTrim v = "" → repo.files = f :: rest →
        (handleSubmit v [] (some repo)).map SessionRequest.code = some f.content) ∧
      (∀ (v : String) (f : LocalFile) (content : String), jsTrim v = "" →
        f.readResult = some content →
        (handleSubmit v [f] none).map SessionRequest.code = some content) := by
  refine ⟨by decide, ?_, ?_, ?_, ?_⟩
  · intro v f content hv hr
    simp [handleSubmit, resolveContent, resolveFromFiles, submitHeaderFile, hv, hr]
  · intro v repo f rest hv hfiles
    simp [handleSubmit, resolveContent, submitHeaderRepo, hv, hfiles]
  · intro v repo f rest hv hfiles
    simp [handleSubmit, resolveContent, hv, hfiles]
  · intro v f content hv hr
    simp [handleSubmit, resolveContent, resolveFromFiles, hv, hr]

/-- C7 witness: each composition case at concrete inputs. -/
theorem contentComposition_witness :
    ((handleSubmit "hello" [] none).map fun r => (r.code, r.language)) =
        some ("hello", "javascript") ∧
      (handleSubmit "hello" [⟨"a.ts", some "X"⟩] none).map SessionRequest.code =
        some ("// User Input: " ++ "hello" ++ "\n\n// File: " ++ "a.ts" ++ "\n" ++ "X") ∧
      (handleSubmit "hello" []
          (some { name := "r", fullName := "o/r", description := "d", stars := 0,
                  language := "Go",
                  files := [⟨"m.go", "m.go", "GO", 2, "file", some "go"⟩] })).map
          SessionRequest.code =
        some ("// User Input: " ++ "hello" ++ "\n\n// GitHub Repository: " ++ "o/r" ++
          "\n// File: " ++ "m.go" ++ "\n" ++ "GO") ∧
      (handleSubmit " " []
          (some { name := "r", fullName := "o/r", description := "d", stars := 0,
                  language := "Go",
                  files := [⟨"m.go", "m.go", "GO", 2, "file", some "go"⟩] })).map
          SessionRequest.code = some "GO" ∧
      (handleSubmit "" [⟨"a.ts", some "X"⟩] none).map SessionRequest.code = some "X" :=
  ⟨contentComposition.1,
    contentComposition.2.1 "hello" ⟨"a.ts", some "X"⟩ "X" (by decide) rfl,
    contentComposition.2.2.1 "hello" _ ⟨"m.go", "m.go", "GO", 2, "file", some "go"⟩ []
      (by decide) rfl,
    contentComposition.2.2.2.1 " " _ ⟨"m.go", "m.go", "GO", 2, "file", some "go"⟩ []
      (by decide) rfl,
    contentComposition.2.2.2.2 "" ⟨"a.ts", some "X"⟩ "X" (by decide) rfl⟩

/-! ## Claim C8 -/

/-- C8: when reading the first attached local file fails and no
repository snapshot is present, the code content is the raw user text and
the language stays the default `"javascript"`. -/
theorem fileReadFailure (v : String) (f : LocalFile) (rest : List LocalFile)
    (h : f.readResult = none) :
    (handleSubmit v (f :: rest) none).map (fun r => (r.code, r.language)) =
      some (v, "javascript") := by
  simp [handleSubmit, resolveContent, resolveFromFiles, h]

/-- C8 witness. -/
theorem fileReadFailure_witness :
    (handleSubmit "my text" [⟨"broken.py", none⟩] none).map
        (fun r => (r.code, r.language)) = some ("my text", "javascript") :=
  fileReadFailure "my text" ⟨"broken.py", none⟩ [] rfl

/-! ## Claim C9 -/

/-- C9: with empty trimmed user text, no attached file and no snapshot,
the submit handler is a no-op: no request is produced and nothing is
persisted. -/
theorem noopSubmit (v : String) (h : jsTrim v = "") :
    handleSubmit v [] none = none ∧ submitAndPersist v [] none = none := by
  have h1 : handleSubmit v [] none = none := by
    unfold handleSubmit
    rw [if_neg]
    rintro (hv | hf | hr)
    · exact hv h
    · exact hf rfl
    · simp at hr
  exact ⟨h1, by rw [submitAndPersist, h1]; rfl⟩

/-- C9 witness. -/
theorem noopSubmit_witness :
    handleSubmit "   " [] none = none ∧ submitAndPersist "   " [] none = none :=
  noopSubmit "   " (by decide)

/-! ## Claim C10 -/

/-- A successfully resolved snapshot with an empty file list, used in the
C10 counterexample. -/
def emptyRepoC10 : GitHubRepo :=
  { name := "r", fullName := "o/r", description := "d", stars := 3,
    language := "Go", files := [] }

/-- C10 counterexample: with an empty-file-list snapshot and non-empty
user text, the seed message is the user text and does not name the
repository, refuting the claim's "named in the seed message" for such
submits. -/
theorem emptySnapshotSeed_counterexample :
    (handleSubmit "hello" [] (some emptyRepoC10)).map SessionRequest.initialMessage =
        some "hello" ∧
      ("hello" : String) ≠ "Opened GitHub repository: " ++ emptyRepoC10.fullName := by
  decide

/-- C10 (amended): when the snapshot's file list is empty, code content
and language are selected exactly as if no repository were attached (from
local files or raw text), the empty snapshot is still sent in the
request's `githubRepo` field, and the repository is named in the seed
message exactly when the user text is empty (otherwise the seed message
is the user text). -/
theorem emptySnapshotBehavior (v : String) (files : List LocalFile)
    (repo : GitHubRepo) (h : repo.files = []) :
    ((handleSubmit v files (some repo)).map fun r => (r.code, r.language)) =
        (if jsTrim v = "" ∧ files = [] then some (v, "javascript")
         else (handleSubmit v files none).map fun r => (r.code, r.language)) ∧
      (handleSubmit v files (some repo)).map SessionRequest.githubRepo =
        some (some ⟨repo.name, repo.fullName, repo.files⟩) ∧
      (handleSubmit v files (some repo)).map SessionRequest.initialMessage =
        some (if v = "" then "Opened GitHub repository: " ++ repo.fullName else v) := by
  refine ⟨?_, ?_, ?_⟩
  · by_cases hv : jsTrim v = ""
    · by_cases hf : files = []
      · subst hf
        simp [handleSubmit, resolveContent, resolveFromFiles, h, hv]
      · simp [handleSubmit, resolveContent, h, hv, hf]
    · simp [handleSubmit, resolveContent, h, hv]
  · simp [handleSubmit]
  · by_cases hv0 : v = "" <;> simp [handleSubmit, initialMessageFor, hv0]

/-- C10 witness. -/
theorem emptySnapshotBehavior_witness :
    ((handleSubmit "x" [⟨"m.go", some "G"⟩] (some emptyRepoC10)).map
          fun r => (r.code, r.language)) =
        (if jsTrim "x" = "" ∧ ([⟨"m.go", some "G"⟩] : List LocalFile) = [] then
            some ("x", "javascript")
         else (handleSubmit "x" [⟨"m.go", some "G"⟩] none).map
            fun r => (r.code, r.language)) ∧
      (handleSubmit "x" [⟨"m.go", some "G"⟩] (some emptyRepoC10)).map
          SessionRequest.githubRepo =
        some (some ⟨emptyRepoC10.name, emptyRepoC10.fullName, emptyRepoC10.files⟩) ∧
      (handleSubmit "x" [⟨"m.go", some "G"⟩] (some emptyRepoC10)).map
          SessionRequest.initialMessage =
        some (if "x" = "" then "Opened GitHub repository: " ++ emptyRepoC10.fullName
          else "x") :=
  emptySnapshotBehavior "x" [⟨"m.go", some "G"⟩] emptyRepoC10 rfl

/-! ## Repository resolution lemmas -/

theorem resolveItem_language (env : GitHubEnv) (item : ContentsItem) (f : GitHubFile)
    (h : resolveItem env item = some f) :
    f.language = some (detectLanguageFromFile f.name) := by
  unfold resolveItem at h
  cases hf : env.fileText item.download_url with
  | none => rw [hf] at h; simp at h
  | some content =>
    rw [hf] at h
    simp only [Option.map_some'] at h
    injection h with h
    subst h
    rfl

theorem fetchGitHubRepo_success (env : GitHubEnv) (url owner repo : String)
    (meta : RepoMeta) (items : List ContentsItem)
    (h1 : matchOwnerRepo url.data = some (owner, repo))
    (h2 : env.repoMeta owner (stripGitSuffix repo) = some meta)
    (h3 : env.contents owner (stripGitSuffix repo) = some items) :
    fetchGitHubRepo env url =
      some { name := meta.name
             fullName := meta.full_name
             description :=
               match meta.description with
               | some d => if d = "" then "No description available" else d
               | none => "No description available"
             stars := meta.stargazers_count
             language :=
               match meta.language with
               | some l => if l = "" then "Unknown" else l
               | none => "Unknown"
             files := ((items.filter fun item => item.type = "file").take 10).filterMap
               (resolveItem env) } := by
  unfold fetchGitHubRepo
  rw [h1]
  simp only [h2, h3]

/-! ## Claim C4 -/

/-- C4: under a successful parse, metadata fetch and contents fetch, the
resolved file list is exactly the listing's entries of kind `"file"`,
limited to the first 10 in listing order, each passed through the
per-item fetch and tagged with the language inferred from its name via
the fixed extension table; the list never exceeds 10 files, and an
extension absent from the table yields the `"javascript"` default. -/
theorem repoResolution_files (env : GitHubEnv) (url owner repo : String)
    (meta : RepoMeta) (items : List ContentsItem)
    (h1 : matchOwnerRepo url.data = some (owner, repo))
    (h2 : env.repoMeta owner (stripGitSuffix repo) = some meta)
    (h3 : env.contents owner (stripGitSuffix repo) = some items) :
    (fetchGitHubRepo env url).isSome = true ∧
      (fetchGitHubRepo env url).map GitHubRepo.files =
        some (((items.filter fun item => item.type = "file").take 10).filterMap
          (resolveItem env)) ∧
      (((items.filter fun item => item.type = "file").take 10).filterMap
          (resolveItem env)).length ≤ 10 ∧
      (∀ f ∈ ((items.filter fun item => item.type = "file").take 10).filterMap
          (resolveItem env),
        f.language = some (detectLanguageFromFile f.name)) ∧
      (∀ name : String,
        languageMap.find? (fun p => p.1 = fileExtension name) = none →
          detectLanguageFromFile name = "javascript") := by
  rw [fetchGitHubRepo_success env url owner repo meta items h1 h2 h3]
  refine ⟨rfl, rfl, ?_, ?_, ?_⟩
  · calc (((items.filter fun item => item.type = "file").take 10).filterMap
        (resolveItem env)).length
        ≤ ((items.filter fun item => item.type = "file").take 10).length :=
          List.length_filterMap_le _ _
      _ ≤ 10 := List.length_take_le _ _
  · intro f hf
    rcases List.mem_filterMap.1 hf with ⟨item, _, hitem⟩
    exact resolveItem_language env item f hitem
  · intro name hnone
    unfold detectLanguageFromFile
    rw [hnone]

/-- A contents listing with 15 entries of kind file. -/
def itemsC4 : List ContentsItem :=
  (List.range 15).map fun i =>
    { name := "f" ++ toString i ++ ".py", path := "f" ++ toString i ++ ".py",
      type := "file", size := i, download_url := "u" ++ toString i }

/-- Metadata fixture for the C4 witness. -/
def metaC4 : RepoMeta :=
  { name := "proj", full_name := "alice/proj", description := some "demo",
    stargazers_count := 7, language := some "Python" }

/-- Environment fixture for the C4 witness: all file fetches succeed. -/
def envC4 : GitHubEnv :=
  { repoMeta := fun o r => if o = "alice" ∧ r = "proj" then some metaC4 else none
    contents := fun o r => if o = "alice" ∧ r = "proj" then some itemsC4 else none
    fileText := fun u => some ("content:" ++ u) }

/-- C4 witness: resolving a listing with 15 file entries yields exactly
10 files, in original listing order, tagged via the extension table, with
the listing's first entry resolved first (the primary file). -/
theorem repoResolution_files_witness :
    (fetchGitHubRepo envC4 "https://github.com/alice/proj").isSome = true ∧
      (fetchGitHubRepo envC4 "https://github.com/alice/proj").map
          (fun r => r.files.map GitHubFile.name) =
        some ["f0.py", "f1.py", "f2.py", "f3.py", "f4.py", "f5.py", "f6.py",
          "f7.py", "f8.py", "f9.py"] ∧
      (fetchGitHubRepo envC4 "https://github.com/alice/proj").map
          (fun r => r.files.length) = some 10 ∧
      ({ name := "f0.py", path := "f0.py", content := "content:u0", size := 0,
         type := "file", language := some "python" } : GitHubFile).language =
        some (detectLanguageFromFile "f0.py") ∧
      detectLanguageFromFile "README" = "javascript" := by
  have hc4 := repoResolution_files envC4 "https://github.com/alice/proj"
    "alice" "proj" metaC4 itemsC4 (by decide) (by decide) (by decide)
  refine ⟨hc4.1, by decide, by decide, ?_, hc4.2.2.2.2 "README" (by decide)⟩
  exact hc4.2.2.2.1 _ (by decide)

/-! ## Claim C5 -/

/-- C5: under a successful parse, metadata fetch and contents fetch, the
resolution always produces a snapshot (individual file failures are never
propagated as a top-level error), its file list is the per-item
`filterMap` over the first 10 file entries (so every successfully fetched
file remains, in order), and a per-item resolution yields nothing exactly
when that item's content fetch failed (the failing file is dropped). -/
theorem fileFetchFailuresSwallowed (env : GitHubEnv) (url owner repo : String)
    (meta : RepoMeta) (items : List ContentsItem)
    (h1 : matchOwnerRepo url.data = some (owner, repo))
    (h2 : env.repoMeta owner (stripGitSuffix repo) = some meta)
    (h3 : env.contents owner (stripGitSuffix repo) = some items) :
    (fetchGitHubRepo env url).isSome = true ∧
      (fetchGitHubRepo env url).map GitHubRepo.files =
        some (((items.filter fun item => item.type = "file").take 10).filterMap
          (resolveItem env)) ∧
      (∀ item : ContentsItem,
        resolveItem env item = none ↔ env.fileText item.download_url = none) := by
  rw [fetchGitHubRepo_success env url owner repo meta items h1 h2 h3]
  refine ⟨rfl, rfl, ?_⟩
  intro item
  unfold resolveItem
  cases hf : env.fileText item.download_url <;> simp [hf]

/-- Listing fixture for the C5 witness: three file entries. -/
def itemsC5 : List ContentsItem :=
  [⟨"a.py", "a.py", "file", 1, "ua"⟩,
   ⟨"b.py", "b.py", "file", 1, "ub"⟩,
   ⟨"c.js", "c.js", "file", 1, "uc"⟩]

/-- Environment fixture for the C5 witness: the fetch of `"ub"` (the
middle file) fails, the others succeed. -/
def envC5 : GitHubEnv :=
  { repoMeta := fun o r =>
      if o = "bob" ∧ r = "lib" then some ⟨"lib", "bob/lib", none, 0, none⟩ else none
    contents := fun o r => if o = "bob" ∧ r = "lib" then some itemsC5 else none
    fileText := fun u => if u = "ub" then none else some ("T:" ++ u) }

/-- C5 witness: with the middle file's fetch failing, resolution still
succeeds, the failing file is dropped and the other two remain in
order. -/
theorem fileFetchFailuresSwallowed_witness :
    (fetchGitHubRepo envC5 "https://github.com/bob/lib.git").isSome = true ∧
      (fetchGitHubRepo envC5 "https://github.com/bob/lib.git").map
          (fun r => r.files.map GitHubFile.name) = some ["a.py", "c.js"] ∧
      (resolveItem envC5 ⟨"b.py", "b.py", "file", 1, "ub"⟩ = none ↔
        envC5.fileText "ub" = none) := by
  have hc5 := fileFetchFailuresSwallowed envC5 "https://github.com/bob/lib.git"
    "bob" "lib.git" ⟨"lib", "bob/lib", none, 0, none⟩ itemsC5
    (by decide) (by decide) (by decide)
  exact ⟨hc5.1, by decide, hc5.2.2 ⟨"b.py", "b.py", "file", 1, "ub"⟩⟩

/-! ## Claim C6 -/

/-- C6: if the reference does not match the owner/repo pattern, or the
repository metadata fetch fails, the resolver produces no snapshot, the
modal submit leaves the stored snapshot absent, and every subsequent
submit behaves exactly as if no reference had been supplied. -/
theorem resolutionFailure_noSnapshot (env : GitHubEnv) (url : String)
    (h : matchOwnerRepo (jsTrim url).data = none ∨
      ∀ o r : String, env.repoMeta o r = none) :
    fetchGitHubRepo env (jsTrim url) = none ∧
      handleGithubModalSubmit env none url = none ∧
      (∀ (v : String) (files : List LocalFile),
        handleSubmit v files (handleGithubModalSubmit env none url) =
          handleSubmit v files none) := by
  have hfetch : fetchGitHubRepo env (jsTrim url) = none := by
    unfold fetchGitHubRepo
    cases hm : matchOwnerRepo (jsTrim url).data with
    | none => rfl
    | some p =>
      obtain ⟨o, r⟩ := p
      rcases h with hbad | hmeta
      · rw [hm] at hbad
        exact absurd hbad (by simp)
      · simp only [hmeta]
  have hmodal : handleGithubModalSubmit env none url = none := by
    unfold handleGithubModalSubmit
    by_cases hb : jsTrim url ≠ ""
    · rw [if_pos hb, hfetch]
    · rw [if_neg hb]
  exact ⟨hfetch, hmodal, fun v files => by rw [hmodal]⟩

/-- Environment fixture for the C6 witness: every metadata fetch reports
not-found. -/
def envC6 : GitHubEnv :=
  { repoMeta := fun _ _ => none
    contents := fun _ _ => some []
    fileText := fun _ => none }

/-- C6 witness: one instance where the metadata fetch fails on a
well-formed reference, and one where the reference does not match the
pattern; in both, no snapshot results and a concrete subsequent submit
equals the no-reference submit. -/
theorem resolutionFailure_noSnapshot_witness :
    (fetchGitHubRepo envC6 (jsTrim "https://github.com/ghost/missing") = none ∧
        handleGithubModalSubmit envC6 none "https://github.com/ghost/missing" = none ∧
        handleSubmit "t" []
            (handleGithubModalSubmit envC6 none "https://github.com/ghost/missing") =
          handleSubmit "t" [] none) ∧
      (fetchGitHubRepo envC6 (jsTrim "https://example.com/not-a-repo") = none ∧
        handleGithubModalSubmit envC6 none "https://example.com/not-a-repo" = none ∧
        handleSubmit "t" []
            (handleGithubModalSubmit envC6 none "https://example.com/not-a-repo") =
          handleSubmit "t" [] none) := by
  have hA := resolutionFailure_noSnapshot envC6 "https://github.com/ghost/missing"
    (Or.inr fun o r => rfl)
  have hB := resolutionFailure_noSnapshot envC6 "https://example.com/not-a-repo"
    (Or.inl (by decide))
  exact ⟨⟨hA.1, hA.2.1, hA.2.2 "t" []⟩, ⟨hB.1, hB.2.1, hB.2.2 "t" []⟩⟩
